import Mathlib

/-!
Verification of the OCR Confidence & Quality-Gate Routing Engine of the
LearningYogi repository, shallowly embedded from
`POCImplementations/PoCImplementation1/backend/python/src/ocr/processor.py` and
`POCImplementations/POCDemoImplementation/backend/python/app/services/ocr_service.py`.

Strings are modelled as `List Char`; Python floats are modelled as rationals `ℚ`
(the arithmetic here is exact in both worlds for the claims at stake); Python
exceptions (IndexError on mismatched Tesseract arrays) are modelled with `Option`.
-/

namespace LearningYogi

/-- Python `\w` word character for ASCII text: `[a-zA-Z0-9_]`. -/
def isWordChar (c : Char) : Bool := c.isAlphanum || c = '_'

/-- Python whitespace for `str.strip` and `\s`: space, tab, newline, CR, VT, FF. -/
def isPySpace (c : Char) : Bool :=
  c = ' ' || c = '\t' || c = '\n' || c = '\r' || c = '\x0b' || c = '\x0c'

/-- Python `str.strip()`. -/
def pyStrip (s : List Char) : List Char :=
  ((s.dropWhile isPySpace).reverse.dropWhile isPySpace).reverse

/-- Python `str.split('\n')`. -/
def splitOnNl : List Char → List (List Char)
  | [] => [[]]
  | '\n' :: rest => [] :: splitOnNl rest
  | c :: rest =>
    match splitOnNl rest with
    | [] => [[c]]
    | l :: ls => (c :: l) :: ls

/-- Python `int()` on a string of decimal digits. -/
def strToNat (s : List Char) : Nat :=
  s.foldl (fun a c => a * 10 + (c.toNat - 48)) 0

/-- Decimal digits of a natural number (fuel-based so the kernel can evaluate it). -/
def natToCharsAux : Nat → Nat → List Char
  | 0, _ => []
  | fuel + 1, n =>
    if n < 10 then [Nat.digitChar n]
    else natToCharsAux fuel (n / 10) ++ [Nat.digitChar (n % 10)]

def natToChars (n : Nat) : List Char := natToCharsAux (n + 1) n

/-- Python `f"{n:02d}"` for a non-negative `n`. -/
def fmt02d (n : Nat) : List Char :=
  if n < 10 then '0' :: natToChars n else natToChars n

/-! ## TimeNormalizer
`OCRProcessor._normalize_time` (processor.py lines 392–419).  The regex
`(\d{1,2})[:.]?(\d{2})?\s*(am|pm|AM|PM)?` hands it a triple of captured group
strings, with `''` standing for an absent group (Python's falsy test `if minute_str`
/ `if meridiem`). -/

/-- The `(hour, minute, am/pm)` tuple produced by `re.findall`; empty lists stand
for unmatched optional groups, exactly like Python's `''`. -/
structure TimeTuple where
  hour : List Char
  minute : List Char
  meridiem : List Char
deriving DecidableEq, Repr

/-- Python `str.upper()` on ASCII text. -/
def upperList (s : List Char) : List Char := s.map Char.toUpper

/-- Model of `OCRProcessor._normalize_time`: convert a regex time tuple to `HH:MM`
24-hour form.  `hour = int(hour_str)`; `minute = int(minute_str) if minute_str
else 0`; if the meridiem string is non-empty it is uppercased, `PM` with
`hour != 12` adds 12, `AM` with `hour == 12` zeroes the hour; the result is
`f"{hour:02d}:{minute:02d}"`.  The source performs no range validation. -/
def normalize_time (t : TimeTuple) : List Char :=
  let hour := strToNat t.hour
  let minute := if t.minute.isEmpty then 0 else strToNat t.minute
  let hour :=
    if t.meridiem.isEmpty then hour
    else
      let mer := upperList t.meridiem
      if mer = "PM".data && hour ≠ 12 then hour + 12
      else if mer = "AM".data && hour = 12 then 0
      else hour
  fmt02d hour ++ ':' :: fmt02d minute

/-- A canonical `HH:MM` string: exactly two digits, a colon, two digits, with
hour in `[0,23]` and minute in `[0,59]` (the invariant stated in the spec's
data model). -/
def isValidHHMM : List Char → Bool
  | [h1, h2, ':', m1, m2] =>
    h1.isDigit && h2.isDigit && m1.isDigit && m2.isDigit &&
      strToNat [h1, h2] ≤ 23 && strToNat [m1, m2] ≤ 59
  | _ => false

/-- The hour value `_normalize_time` ends up formatting: `int(hour_str)`,
+12 for `PM` when not 12, zeroed for `AM` at 12, untouched otherwise. -/
def adjusted_hour (t : TimeTuple) : Nat :=
  let hour := strToNat t.hour
  if t.meridiem.isEmpty then hour
  else
    let mer := upperList t.meridiem
    if mer = "PM".data ∧ hour ≠ 12 then hour + 12
    else if mer = "AM".data ∧ hour = 12 then 0
    else hour

/-- The minute value `_normalize_time` formats: `int(minute_str)` when the
minute group matched, else 0. -/
def minute_val (t : TimeTuple) : Nat :=
  if t.minute.isEmpty then 0 else strToNat t.minute

/-! ## Quality gates
`OCRProcessor.calculate_quality_gate_decision` (processor.py lines 164–197,
three tiers at 0.98/0.80) and `OCRService.calculate_quality_gate`
(ocr_service.py lines 61–84, two tiers at 0.80).  Confidences are rationals;
the routing decision's human-readable `reason` string is an f-string over the
confidence and is not modelled (no claim concerns it). -/

/-- The `OCRResult` dataclass: the fields the gates and extractors consume. -/
structure OCRResult where
  text : List Char
  confidence : ℚ
  engine : List Char
deriving DecidableEq, Repr

/-- The `QualityGateDecision` dataclass (route, confidence); `route` is one of the
literal strings `'validation'`, `'llm'`, `'hitl'`, `'ai'`. -/
structure QualityGateDecision where
  route : List Char
  confidence : ℚ
deriving DecidableEq, Repr

def HIGH_CONFIDENCE_THRESHOLD : ℚ := 98 / 100

def MEDIUM_CONFIDENCE_THRESHOLD : ℚ := 80 / 100

/-- Two-tier `OCRService.CONFIDENCE_THRESHOLD`. -/
def CONFIDENCE_THRESHOLD : ℚ := 80 / 100

/-- Three-tier gate, `OCRProcessor.calculate_quality_gate_decision`. -/
def calculate_quality_gate_decision (ocr_result : OCRResult) : QualityGateDecision :=
  let confidence := ocr_result.confidence
  if confidence ≥ HIGH_CONFIDENCE_THRESHOLD then
    { route := "validation".data, confidence := confidence }
  else if confidence ≥ MEDIUM_CONFIDENCE_THRESHOLD then
    { route := "llm".data, confidence := confidence }
  else
    { route := "hitl".data, confidence := confidence }

/-- Two-tier gate, `OCRService.calculate_quality_gate`. -/
def calculate_quality_gate (ocr_result : OCRResult) : QualityGateDecision :=
  let confidence := ocr_result.confidence
  if confidence ≥ CONFIDENCE_THRESHOLD then
    { route := "validation".data, confidence := confidence }
  else
    { route := "ai".data, confidence := confidence }

/-- Tier ordering used by the spec: `Validation > AiEnhance > HumanReview`
(`'llm'` and `'ai'` are the two labels of the middle AiEnhance tier). -/
def tierRank (route : List Char) : Nat :=
  if route = "validation".data then 2
  else if route = "llm".data || route = "ai".data then 1
  else 0

/-! ## Time-token regex
Both processors match time tokens with the regex
`(\d{1,2})[:.]?(\d{2})?\s*(am|pm|AM|PM)?`, optionally wrapped in `\b ... \b`
(`_detect_time_patterns`) and optionally with `re.IGNORECASE`
(`extract_timeblocks`).  We model Python's backtracking engine by listing every
way each piece can match, in the engine's priority order (greedy first, earlier
choice points most significant), so that the first surviving alternative is
exactly the match Python reports. -/

/-- All ways `(\d{1,2})` can match at the head of `s`: two digits before one. -/
def digitAlts (s : List Char) : List (List Char × List Char) :=
  match s with
  | [] => []
  | [c1] => if c1.isDigit then [([c1], [])] else []
  | c1 :: c2 :: rest =>
    if c1.isDigit then
      if c2.isDigit then [([c1, c2], rest), ([c1], c2 :: rest)]
      else [([c1], c2 :: rest)]
    else []

/-- All ways `[:.]?` can match: consume the separator before skipping it. -/
def sepAlts (s : List Char) : List (List Char × List Char) :=
  match s with
  | c :: rest => if c = ':' || c = '.' then [([c], rest), ([], c :: rest)] else [([], s)]
  | [] => [([], [])]

/-- All ways `(\d{2})?` can match: the two-digit group before skipping. -/
def minuteAlts (s : List Char) : List (List Char × List Char) :=
  match s with
  | c1 :: c2 :: rest =>
    if c1.isDigit && c2.isDigit then [([c1, c2], rest), ([], c1 :: c2 :: rest)]
    else [([], s)]
  | _ => [([], s)]

/-- All ways greedy `\s*` can match: longest whitespace run first. -/
def wsAlts (s : List Char) : List (List Char × List Char) :=
  ((List.range ((s.takeWhile isPySpace).length + 1)).reverse).map
    fun i => (s.take i, s.drop i)

/-- Match a literal at the head of `s`, case-insensitively when `ic` is set;
returns the remainder. -/
def matchLit (ic : Bool) : List Char → List Char → Option (List Char)
  | [], s => some s
  | _ :: _, [] => none
  | p :: ps, c :: cs =>
    if (if ic then c.toLower = p.toLower else c = p) then matchLit ic ps cs else none

/-- All ways `(am|pm|AM|PM)?` can match, alternatives in source order, skip last.
The captured text is taken verbatim from the input. -/
def merAlts (ic : Bool) (s : List Char) : List (List Char × List Char) :=
  (["am".data, "pm".data, "AM".data, "PM".data].filterMap fun pat =>
    (matchLit ic pat s).map fun rest => (s.take pat.length, rest)) ++ [([], s)]

/-- Every way the whole time pattern can match at the head of `s`, as
`(captured groups, remainder)`, in backtracking priority order. -/
def timeMatchAlts (ic : Bool) (s : List Char) : List (TimeTuple × List Char) :=
  (digitAlts s).flatMap fun hm =>
    (sepAlts hm.2).flatMap fun sep =>
      (minuteAlts sep.2).flatMap fun mm =>
        (wsAlts mm.2).flatMap fun ws =>
          (merAlts ic ws.2).map fun mer => (⟨hm.1, mm.1, mer.1⟩, mer.2)

/-- The match Python reports for the pattern without `\b` anchors (used with
`re.IGNORECASE` by `extract_timeblocks`): the first alternative. -/
def matchTimeNoB (s : List Char) : Option (TimeTuple × List Char) :=
  (timeMatchAlts true s).head?

/-- Boundary test: `\b` holds between two (optional) characters iff exactly one side is a
word character (string edges count as non-word). -/
def isWordOpt : Option Char → Bool
  | some c => isWordChar c
  | none => false

def boundaryOk (a b : Option Char) : Bool := isWordOpt a != isWordOpt b

/-- The match Python reports at the head of `s` for the `\b`-anchored,
case-sensitive pattern of `_detect_time_patterns`, given the character `prev`
preceding this position: the first alternative whose ends both sit on word
boundaries. -/
def matchTimeB (prev : Option Char) (s : List Char) : Option (TimeTuple × List Char) :=
  ((timeMatchAlts false s).filter fun alt =>
    boundaryOk prev s.head? &&
      boundaryOk (s.take (s.length - alt.2.length)).getLast? alt.2.head?).head?

/-- The `re.findall` scan for the `\b`-anchored pattern: count non-overlapping
matches left to right (every match consumes at least one character, so fuel
`length + 1` suffices). -/
def countTimeAux : Nat → Option Char → List Char → Nat
  | 0, _, _ => 0
  | _ + 1, _, [] => 0
  | fuel + 1, prev, c :: cs =>
    match matchTimeB prev (c :: cs) with
    | some (_, rest) =>
      1 + countTimeAux fuel ((c :: cs).take ((c :: cs).length - rest.length)).getLast? rest
    | none => countTimeAux fuel (some c) cs

def countTimeMatches (text : List Char) : Nat :=
  countTimeAux (text.length + 1) none text

/-- Model of `_detect_time_patterns` (identical in both processors): map the number of
time-regex matches in the full text to a score. -/
def detect_time_patterns (text : List Char) : ℚ :=
  let n := countTimeMatches text
  if n ≥ 5 then 1
  else if n ≥ 3 then 8 / 10
  else if n ≥ 1 then 6 / 10
  else 0

/-! ## WordExtractor and the confidence signals
`_extract_words`, `_calculate_confidence` and friends (processor.py lines
260–389, ocr_service.py lines 86–232).  Tesseract hands back parallel
per-index arrays; Python indexes them by `range(len(data['text']))`, so a
missing index raises IndexError — modelled by `Option`. -/

/-- The parallel per-index arrays of Tesseract's `image_to_data` output;
`conf` entries are engine-native integers (0–100, or the sentinel `-1`). -/
structure TessData where
  text : List (List Char)
  conf : List Int
  left : List Int
  top : List Int
  width : List Int
  height : List Int
deriving Repr

/-- A recognized word built by `_extract_words` (`OCRWord` in the demo
implementation, a plain dict in PoC1 — same fields). -/
structure OCRWord where
  text : List Char
  confidence : ℚ
  left : Int
  top : Int
  width : Int
  height : Int
deriving DecidableEq, Repr

/-- The loop body of `_extract_words` over a list of indices: `int(conf[i])`
is read first, and a word is materialized only when it is `> 0`; any index
access beyond an array's end is Python's IndexError, i.e. `none`. -/
def extractWordsFrom (d : TessData) : List Nat → Option (List OCRWord)
  | [] => some []
  | i :: is => do
    let c ← d.conf.get? i
    if c > 0 then
      let t ← d.text.get? i
      let l ← d.left.get? i
      let tp ← d.top.get? i
      let w ← d.width.get? i
      let h ← d.height.get? i
      let ws ← extractWordsFrom d is
      some ({ text := t, confidence := (c : ℚ) / 100, left := l, top := tp,
              width := w, height := h } :: ws)
    else
      extractWordsFrom d is

/-- Model of `_extract_words` (identical filter in both implementations): for
`i in range(len(data['text']))`, keep index `i` iff `int(data['conf'][i]) > 0`,
normalizing confidence by `/ 100`. -/
def extract_words (d : TessData) : Option (List OCRWord) :=
  extractWordsFrom d (List.range d.text.length)

/-- The word built from index `i` of the Tesseract arrays (out-of-range
indices read the defaults, which the bounds rule out). -/
def wordAt (d : TessData) (i : Nat) : OCRWord :=
  ⟨d.text.getD i [], (d.conf.getD i 0 : ℚ) / 100, d.left.getD i 0,
   d.top.getD i 0, d.width.getD i 0, d.height.getD i 0⟩

/-- Factor 1 of `_calculate_confidence`:
`confidences = [float(c)/100.0 for c in data['conf'] if int(c) > 0]`,
then `np.mean(confidences) if confidences else 0.0`. -/
def mean_char_confidence (conf : List Int) : ℚ :=
  let confidences := (conf.filter fun c => c > 0).map fun c => (c : ℚ) / 100
  if confidences.isEmpty then 0 else confidences.sum / confidences.length

/-- The mean the spec's CharConfidence sentence describes instead: computed
over the raw **pre-filter** confidence set, including entries WordExtractor
would exclude at threshold 0 (such as the sentinel `-1`); 0 when the set is
empty.  Kept separate from `mean_char_confidence` so the two can be compared. -/
def mean_char_confidence_prefilter (conf : List Int) : ℚ :=
  let confidences := conf.map fun c => (c : ℚ) / 100
  if confidences.isEmpty then 0 else confidences.sum / confidences.length

/-- The closed timetable vocabulary of PoC1's `_calculate_dictionary_match`. -/
def timetable_vocab : List (List Char) :=
  ["monday", "tuesday", "wednesday", "thursday", "friday", "saturday", "sunday",
   "maths", "english", "science", "history", "geography", "art", "music", "pe",
   "physical", "education", "assembly", "registration", "break", "lunch",
   "recess", "reading", "writing", "phonics", "spelling"].map String.data

/-- The demo implementation's vocabulary: PoC1's plus `'class'`. -/
def timetable_vocab_demo : List (List Char) :=
  timetable_vocab ++ ["class".data]

/-- Python `str.lower()` on ASCII text. -/
def lowerList (s : List Char) : List Char := s.map Char.toLower

/-- Model of `_calculate_dictionary_match` over a given vocabulary: the fraction of
words whose lowercasing is in the vocabulary; 0 for an empty word list. -/
def calculate_dictionary_match (vocab : List (List Char)) (words : List (List Char)) : ℚ :=
  if words.isEmpty then 0
  else ((words.countP fun w => vocab.contains (lowerList w) : Nat) : ℚ) / words.length

/-- Model of `_detect_layout_consistency` (identical in both implementations): 0.0 for
an empty `data['text']`, 0.8 when it has more than 10 entries, else 0.5. -/
def detect_layout_consistency (textArr : List (List Char)) : ℚ :=
  if textArr.isEmpty then 0
  else if textArr.length > 10 then 8 / 10
  else 5 / 10

/-- The fixed-weight aggregation of `_calculate_confidence`:
`0.4*char + 0.2*dict + 0.2*layout + 0.2*time`, capped by `min(·, 1.0)`. -/
def aggregate_confidence (charC dictM layout timeP : ℚ) : ℚ :=
  min (4 / 10 * charC + 2 / 10 * dictM + 2 / 10 * layout + 2 / 10 * timeP) 1

/-- Model of `_calculate_confidence` (both implementations; they differ only in the
vocabulary constant, passed here as a parameter): the four signals are
computed from the raw Tesseract data and the full text, then aggregated.
`words = [w for w in data['text'] if w.strip()]` keeps the non-blank raw
strings. -/
def calculate_confidence (vocab : List (List Char)) (d : TessData)
    (text : List Char) : ℚ :=
  let mcc := mean_char_confidence d.conf
  let words := d.text.filter fun w => ¬ (pyStrip w).isEmpty
  let dict := calculate_dictionary_match vocab words
  let layout := detect_layout_consistency d.text
  let timeS := detect_time_patterns text
  aggregate_confidence mcc dict layout timeS

/-! ## TimeblockExtractor
`OCRProcessor.extract_timeblocks` (processor.py lines 199–256).  Per non-blank
line: a weekday hit (word-boundary, case-insensitive `re.search`) updates
`current_day` and skips the line; otherwise `re.findall`/`re.sub` with the
time pattern (IGNORECASE, no `\b`) give the time tuples and the residual event
name.  `re.findall` and `re.sub` traverse the same non-overlapping matches, so
one scan computes both the tuple list and the text left over after deleting
every match. -/

/-- One left-to-right `re.findall`/`re.sub` scan for the unanchored,
case-insensitive time pattern: returns the matched tuples in order and the
unmatched characters in order (the `re.sub(pattern, '', line)` residue). -/
def scanTimesAux : Nat → List Char → List TimeTuple × List Char
  | 0, s => ([], s)
  | _ + 1, [] => ([], [])
  | fuel + 1, c :: cs =>
    match matchTimeNoB (c :: cs) with
    | some (t, rest) =>
      let r := scanTimesAux fuel rest
      (t :: r.1, r.2)
    | none =>
      let r := scanTimesAux fuel cs
      (r.1, c :: r.2)

def scanTimes (s : List Char) : List TimeTuple × List Char :=
  scanTimesAux (s.length + 1) s

/-- The seven weekday alternation of the day regex, paired with the
`.capitalize()`d form the extractor stores. -/
def weekdayPairs : List (List Char × List Char) :=
  [("monday", "Monday"), ("tuesday", "Tuesday"), ("wednesday", "Wednesday"),
   ("thursday", "Thursday"), ("friday", "Friday"), ("saturday", "Saturday"),
   ("sunday", "Sunday")].map fun p => (p.1.data, p.2.data)

def weekdayNamesCap : List (List Char) := weekdayPairs.map Prod.snd

/-- Try the weekday alternation at one position: the name must match
case-insensitively and both ends must sit on `\b` word boundaries.  Since the
matched text is a case variant of the lowercase name, Python's
`day_match.group(1).capitalize()` is exactly the stored capitalized form. -/
def tryWeekdayNames : List (List Char × List Char) → Option Char → List Char →
    Option (List Char)
  | [], _, _ => none
  | (lo, cap) :: more, prev, s =>
    match matchLit true lo s with
    | some rest =>
      if !isWordOpt prev && !isWordOpt rest.head? then some cap
      else tryWeekdayNames more prev s
    | none => tryWeekdayNames more prev s

/-- Model of `re.search(r'\b(monday|...|sunday)\b', line, re.IGNORECASE)`: leftmost
position wins, then alternation order. -/
def findWeekdayAux : Nat → Option Char → List Char → Option (List Char)
  | 0, _, _ => none
  | _ + 1, _, [] => none
  | fuel + 1, prev, c :: cs =>
    match tryWeekdayNames weekdayPairs prev (c :: cs) with
    | some cap => some cap
    | none => findWeekdayAux fuel (some c) cs

def findWeekday (s : List Char) : Option (List Char) :=
  findWeekdayAux (s.length + 1) none s

/-- One extracted timeblock dict: `{'day', 'name', 'startTime', 'endTime'}`. -/
structure TimeBlock where
  day : List Char
  name : List Char
  startTime : Option (List Char)
  endTime : Option (List Char)
deriving DecidableEq, Repr

/-- The line loop of `extract_timeblocks`, carrying `current_day`: strip the
line and skip it if blank; a weekday hit updates `current_day`; otherwise,
with a day in scope and at least one time tuple found, a block is emitted
unless stripping the `re.sub` residue leaves an empty event name. -/
def processLines (current_day : Option (List Char)) : List (List Char) → List TimeBlock
  | [] => []
  | rawLine :: rest =>
    if (pyStrip rawLine).isEmpty then processLines current_day rest
    else
      match findWeekday (pyStrip rawLine) with
      | some day => processLines (some day) rest
      | none =>
        match current_day with
        | none => processLines current_day rest
        | some day =>
          match (scanTimes (pyStrip rawLine)).1 with
          | [] => processLines current_day rest
          | t :: ts =>
            if (pyStrip (scanTimes (pyStrip rawLine)).2).isEmpty then
              processLines current_day rest
            else
              { day := day, name := pyStrip (scanTimes (pyStrip rawLine)).2,
                startTime := some (normalize_time t),
                endTime := ts.head?.map normalize_time } ::
                processLines current_day rest

/-- Model of `OCRProcessor.extract_timeblocks`: strip the text, split into lines, run
the day/time state machine. -/
def extract_timeblocks (text : List Char) : List TimeBlock :=
  processLines none (splitOnNl (pyStrip text))

/-- Does `pat` occur at the head of `s`? -/
def startsWithL : List Char → List Char → Bool
  | [], _ => true
  | _ :: _, [] => false
  | p :: ps, c :: cs => p = c && startsWithL ps cs

/-- Does `pat` occur anywhere in `s` as a contiguous substring? -/
def containsSubL (pat : List Char) : List Char → Bool
  | [] => pat.isEmpty
  | c :: cs => startsWithL pat (c :: cs) || containsSubL pat cs

/-- The round-trip scenario text of the spec's testable properties. -/
def roundTripText : List Char :=
  "Monday\n9:00 - 10:00 Maths\n10:00 - 11:00 English\n\nTuesday\n9:00 - 10:00 Science".data

/-! ## The claims -/

/-! ### Concrete sanity checks of the embedding -/

example : fmt02d 9 = "09".data := by decide

example : fmt02d 14 = "14".data := by decide

example : strToNat "25".data = 25 := by decide

example : pyStrip "  a b\n".data = "a b".data := by decide

example : splitOnNl "a\n\nb".data = ["a".data, [], "b".data] := by decide

example : normalize_time ⟨"9".data, [], "am".data⟩ = "09:00".data := by decide

example : normalize_time ⟨"2".data, "30".data, "pm".data⟩ = "14:30".data := by decide

example : normalize_time ⟨"12".data, "00".data, "pm".data⟩ = "12:00".data := by decide

example : normalize_time ⟨"12".data, "00".data, "am".data⟩ = "00:00".data := by decide

example : normalize_time ⟨"14".data, "30".data, []⟩ = "14:30".data := by decide

example : normalize_time ⟨"25".data, "99".data, []⟩ = "25:99".data := by decide

example : isValidHHMM "14:30".data = true := by decide

example : isValidHHMM "25:99".data = false := by decide

example : countTimeMatches "".data = 0 := by decide

example : countTimeMatches "9:00 and 10:30am".data = 2 := by decide

example : countTimeMatches "ab12 cd".data = 0 := by decide

example :
    extract_words ⟨["Mon".data, "x".data, "9:00".data], [95, -1, 98],
      [10, 20, 30], [1, 2, 3], [5, 5, 5], [7, 7, 7]⟩ =
    some [⟨"Mon".data, 95 / 100, 10, 1, 5, 7⟩, ⟨"9:00".data, 98 / 100, 30, 3, 5, 7⟩] := by
  have h : List.range 3 = [0, 1, 2] := by decide
  simp [extract_words, h, extractWordsFrom, List.get?]

example : mean_char_confidence [95, -1, 98] = 193 / 200 := by
  norm_num [mean_char_confidence, List.filter]

example : mean_char_confidence [] = 0 := by
  norm_num [mean_char_confidence, List.filter]

example : calculate_confidence timetable_vocab ⟨[], [], [], [], [], []⟩ [] = 0 := by
  norm_num [calculate_confidence, mean_char_confidence, calculate_dictionary_match,
    detect_layout_consistency, detect_time_patterns, countTimeMatches, countTimeAux,
    aggregate_confidence, List.filter]

example : scanTimes "9:00 - 10:00 Maths".data =
    ([⟨"9".data, "00".data, []⟩, ⟨"10".data, "00".data, []⟩], "- Maths".data) := by
  decide

example : findWeekday "  TUESDAY plan".data = some "Tuesday".data := by decide

example : findWeekday "mondays".data = none := by decide

example : findWeekday "9:00 Maths".data = none := by decide

example :
    extract_timeblocks "Monday\n9:00 - 10:00 Maths\n10:00 - 11:00 English\n\nTuesday\n9:00 - 10:00 Science".data =
    [⟨"Monday".data, "- Maths".data, some "09:00".data, some "10:00".data⟩,
     ⟨"Monday".data, "- English".data, some "10:00".data, some "11:00".data⟩,
     ⟨"Tuesday".data, "- Science".data, some "09:00".data, some "10:00".data⟩] := by
  decide

/-- Claim C1: the three-tier gate returns route `validation` iff
confidence ≥ 0.98, `llm` iff 0.80 ≤ confidence < 0.98, and `hitl` iff
confidence < 0.80; the two-tier gate returns `validation` iff
confidence ≥ 0.80 and `ai` iff confidence < 0.80, so `hitl` is unreachable
under the two-tier policy.  Confidence exactly at a threshold satisfies the
`≥` test, hence routes to the higher tier. -/
theorem quality_gate_routes_iff (r : OCRResult) :
    ((calculate_quality_gate_decision r).route = "validation".data ↔
      98 / 100 ≤ r.confidence) ∧
    ((calculate_quality_gate_decision r).route = "llm".data ↔
      80 / 100 ≤ r.confidence ∧ r.confidence < 98 / 100) ∧
    ((calculate_quality_gate_decision r).route = "hitl".data ↔
      r.confidence < 80 / 100) ∧
    ((calculate_quality_gate r).route = "validation".data ↔
      80 / 100 ≤ r.confidence) ∧
    ((calculate_quality_gate r).route = "ai".data ↔ r.confidence < 80 / 100) ∧
    (calculate_quality_gate r).route ≠ "hitl".data := by
  unfold calculate_quality_gate_decision calculate_quality_gate
    HIGH_CONFIDENCE_THRESHOLD MEDIUM_CONFIDENCE_THRESHOLD CONFIDENCE_THRESHOLD
  dsimp only
  split_ifs with h1 h2 h3 <;>
    refine ⟨?_, ?_, ?_, ?_, ?_, ?_⟩ <;>
    simp only [List.cons.injEq, String.data] <;>
    first
      | decide
      | (rw [true_iff]; first | linarith | (constructor <;> linarith))
      | (exact iff_of_false (by decide) (by intro h; linarith))

theorem tierRank_validation : tierRank "validation".data = 2 := by decide

theorem tierRank_llm : tierRank "llm".data = 1 := by decide

theorem tierRank_ai : tierRank "ai".data = 1 := by decide

theorem tierRank_hitl : tierRank "hitl".data = 0 := by decide

/-- Claim C5: both gate configurations are monotonic — a larger confidence is
never routed to a strictly lower tier, under the ordering
`validation (2) > llm/ai (1) > hitl (0)`. -/
theorem quality_gate_monotone (r1 r2 : OCRResult)
    (h : r1.confidence ≤ r2.confidence) :
    tierRank (calculate_quality_gate_decision r1).route ≤
      tierRank (calculate_quality_gate_decision r2).route ∧
    tierRank (calculate_quality_gate r1).route ≤
      tierRank (calculate_quality_gate r2).route := by
  unfold calculate_quality_gate_decision calculate_quality_gate
    HIGH_CONFIDENCE_THRESHOLD MEDIUM_CONFIDENCE_THRESHOLD CONFIDENCE_THRESHOLD
  dsimp only
  constructor <;> split_ifs <;>
    simp only [tierRank_validation, tierRank_llm, tierRank_ai, tierRank_hitl] <;>
    first | decide | (exfalso; linarith)

/-- Witness for C5 at the concrete confidences 1/2 ≤ 3/4. -/
theorem quality_gate_monotone_witness :
    ((⟨[], 1 / 2, []⟩ : OCRResult).confidence ≤
      (⟨[], 3 / 4, []⟩ : OCRResult).confidence) ∧
    tierRank (calculate_quality_gate_decision ⟨[], 1 / 2, []⟩).route ≤
      tierRank (calculate_quality_gate_decision ⟨[], 3 / 4, []⟩).route ∧
    tierRank (calculate_quality_gate ⟨[], 1 / 2, []⟩).route ≤
      tierRank (calculate_quality_gate ⟨[], 3 / 4, []⟩).route :=
  ⟨by norm_num,
   (quality_gate_monotone ⟨[], 1 / 2, []⟩ ⟨[], 3 / 4, []⟩ (by norm_num)).1,
   (quality_gate_monotone ⟨[], 1 / 2, []⟩ ⟨[], 3 / 4, []⟩ (by norm_num)).2⟩

/-- Claim C4: the aggregated confidence is the fixed weighted sum
`0.4·char + 0.2·dict + 0.2·layout + 0.2·time` clamped by `min(·, 1.0)`, and
for any four signal values in `[0,1]` the aggregate lies in `[0.0, 1.0]`. -/
theorem confidence_aggregation_formula_and_bounds
    (vocab : List (List Char)) (d : TessData) (text : List Char)
    (a b c e : ℚ) (ha0 : 0 ≤ a) (ha1 : a ≤ 1) (hb0 : 0 ≤ b) (hb1 : b ≤ 1)
    (hc0 : 0 ≤ c) (hc1 : c ≤ 1) (he0 : 0 ≤ e) (he1 : e ≤ 1) :
    calculate_confidence vocab d text =
      min (4 / 10 * mean_char_confidence d.conf +
           2 / 10 * calculate_dictionary_match vocab
             (d.text.filter fun w => ¬ (pyStrip w).isEmpty) +
           2 / 10 * detect_layout_consistency d.text +
           2 / 10 * detect_time_patterns text) 1 ∧
    0 ≤ aggregate_confidence a b c e ∧ aggregate_confidence a b c e ≤ 1 := by
  refine ⟨rfl, ?_, min_le_right _ _⟩
  unfold aggregate_confidence
  exact le_min (by linarith) (by norm_num)

/-- Witness for C4 with all four signals at 1/2. -/
theorem confidence_aggregation_witness :
    (0 ≤ (1 / 2 : ℚ)) ∧ ((1 / 2 : ℚ) ≤ 1) ∧
    0 ≤ aggregate_confidence (1 / 2) (1 / 2) (1 / 2) (1 / 2) ∧
    aggregate_confidence (1 / 2) (1 / 2) (1 / 2) (1 / 2) ≤ 1 :=
  ⟨by norm_num, by norm_num,
   (confidence_aggregation_formula_and_bounds timetable_vocab ⟨[], [], [], [], [], []⟩
      [] (1 / 2) (1 / 2) (1 / 2) (1 / 2) (by norm_num) (by norm_num) (by norm_num)
      (by norm_num) (by norm_num) (by norm_num) (by norm_num) (by norm_num)).2⟩

/-- Counterexample to claim C6 as stated: on the raw confidence array
`[100, -1]` the code averages only the `> 0` entries and yields 1, while the
pre-filter mean over the whole raw set (sentinel `-1` included) would be
99/200 — so CharConfidence is not computed over the pre-filter set. -/
theorem char_confidence_not_prefilter_cex :
    mean_char_confidence [100, -1] = 1 ∧
    mean_char_confidence_prefilter [100, -1] = 99 / 200 ∧
    mean_char_confidence [100, -1] ≠ mean_char_confidence_prefilter [100, -1] := by
  refine ⟨?_, ?_, ?_⟩ <;>
    norm_num [mean_char_confidence, mean_char_confidence_prefilter, List.filter]

/-- Claim C6 (amended): CharConfidence is the arithmetic mean, normalized by
/100, of the **post-filter** confidence set — exactly the `conf > 0` entries
WordExtractor keeps, so the entries WordExtractor excludes at threshold 0
(such as the sentinel `-1`) have no effect — and it is 0 when no confidence
survives the filter. -/
theorem char_confidence_postfilter (conf : List Int) :
    mean_char_confidence conf = mean_char_confidence (conf.filter fun c => c > 0) ∧
    ((conf.filter fun c => c > 0) = [] → mean_char_confidence conf = 0) := by
  constructor
  · have h : ((conf.filter fun c => c > 0).filter fun c => c > 0) =
        conf.filter fun c => c > 0 := by
      simp [List.filter_filter]
    unfold mean_char_confidence
    rw [h]
  · intro h
    unfold mean_char_confidence
    rw [h]
    simp

/-- Witness for C6 (amended) at `conf = [-1]`, which the filter empties. -/
theorem char_confidence_postfilter_witness :
    (([-1] : List Int).filter fun c => c > 0) = [] ∧
    mean_char_confidence [-1] = 0 :=
  ⟨by decide, (char_confidence_postfilter [-1]).2 (by decide)⟩

/-- Claim C8: raw engine output with no words at all (all arrays empty, empty
joined text) scores an aggregated confidence of exactly 0.0, which the
three-tier gate routes to `hitl` (human review) and the two-tier gate to `ai`
(AI enhance); nothing crashes — every function is total on this input. -/
theorem empty_input_confidence_and_routing (vocab : List (List Char)) :
    calculate_confidence vocab ⟨[], [], [], [], [], []⟩ [] = 0 ∧
    (calculate_quality_gate_decision
      ⟨[], calculate_confidence vocab ⟨[], [], [], [], [], []⟩ [],
        "tesseract".data⟩).route = "hitl".data ∧
    (calculate_quality_gate
      ⟨[], calculate_confidence vocab ⟨[], [], [], [], [], []⟩ [],
        "tesseract".data⟩).route = "ai".data := by
  have h0 : calculate_confidence vocab ⟨[], [], [], [], [], []⟩ [] = 0 := by
    norm_num [calculate_confidence, mean_char_confidence, calculate_dictionary_match,
      detect_layout_consistency, detect_time_patterns, countTimeMatches, countTimeAux,
      aggregate_confidence, List.filter]
  refine ⟨h0, ?_, ?_⟩ <;> rw [h0] <;>
    norm_num [calculate_quality_gate_decision, calculate_quality_gate,
      HIGH_CONFIDENCE_THRESHOLD, MEDIUM_CONFIDENCE_THRESHOLD, CONFIDENCE_THRESHOLD]

theorem normalize_time_eq (t : TimeTuple) :
    normalize_time t = fmt02d (adjusted_hour t) ++ ':' :: fmt02d (minute_val t) := by
  unfold normalize_time adjusted_hour minute_val
  split_ifs <;> simp_all [Bool.and_eq_true, decide_eq_true_eq]

/-- Claim C2: for every input tuple the normalizer returns
`f"{hour:02d}:{minute:02d}"` with the minute defaulting to 0 and the hour
adjusted by the PM/AM rules (absent meridiem leaves the hour as 24-hour);
in particular the five specified examples hold. -/
theorem time_normalizer_formula :
    (∀ t : TimeTuple,
      normalize_time t = fmt02d (adjusted_hour t) ++ ':' :: fmt02d (minute_val t)) ∧
    normalize_time ⟨"9".data, [], "am".data⟩ = "09:00".data ∧
    normalize_time ⟨"2".data, "30".data, "pm".data⟩ = "14:30".data ∧
    normalize_time ⟨"12".data, "00".data, "pm".data⟩ = "12:00".data ∧
    normalize_time ⟨"12".data, "00".data, "am".data⟩ = "00:00".data ∧
    normalize_time ⟨"14".data, "30".data, []⟩ = "14:30".data :=
  ⟨normalize_time_eq, by decide, by decide, by decide, by decide, by decide⟩

/-- Counterexample to claim C3 as stated: `_normalize_time` performs no range
validation, so on the malformed input `("25", "99", no meridiem)` it does not
fail — it returns the string "25:99", which is not a valid `HH:MM` (hour 25,
minute 99). -/
theorem time_normalizer_no_validation_cex :
    normalize_time ⟨"25".data, "99".data, []⟩ = "25:99".data ∧
    isValidHHMM "25:99".data = false := by decide

theorem hhmm_valid_of_in_range :
    ∀ h < 24, ∀ m < 60, isValidHHMM (fmt02d h ++ ':' :: fmt02d m) = true := by decide

/-- Claim C3 (amended): the normalizer is total and never raises; it returns a
canonical `HH:MM` string (2-digit hour in [0,23], 2-digit minute in [0,59])
whenever the adjusted hour is at most 23 and the minute at most 59, but
out-of-range inputs such as ("25","99", absent) pass through unvalidated. -/
theorem time_normalizer_valid_when_in_range (t : TimeTuple)
    (hh : adjusted_hour t ≤ 23) (hm : minute_val t ≤ 59) :
    isValidHHMM (normalize_time t) = true := by
  rw [normalize_time_eq]
  exact hhmm_valid_of_in_range _ (by omega) _ (by omega)

/-- Witness for C3 (amended) at the concrete tuple `("7", "05", "pm")`. -/
theorem time_normalizer_valid_witness :
    adjusted_hour ⟨"7".data, "05".data, "pm".data⟩ ≤ 23 ∧
    minute_val ⟨"7".data, "05".data, "pm".data⟩ ≤ 59 ∧
    isValidHHMM (normalize_time ⟨"7".data, "05".data, "pm".data⟩) = true :=
  ⟨by decide, by decide,
   time_normalizer_valid_when_in_range ⟨"7".data, "05".data, "pm".data⟩
     (by decide) (by decide)⟩

theorem get?_eq_some_getD {α : Type} (l : List α) (i : Nat) (d : α)
    (h : i < l.length) : l.get? i = some (l.getD i d) := by
  rw [List.getD_eq_getElem?_getD, List.get?_eq_getElem?, List.getElem?_eq_getElem h]
  rfl

theorem extractWordsFrom_eq (d : TessData)
    (hc : d.conf.length = d.text.length) (hl : d.left.length = d.text.length)
    (ht : d.top.length = d.text.length) (hw : d.width.length = d.text.length)
    (hh : d.height.length = d.text.length) :
    ∀ is : List Nat, (∀ i ∈ is, i < d.text.length) →
      extractWordsFrom d is =
        some ((is.filter fun i => 0 < d.conf.getD i 0).map (wordAt d)) := by
  intro is
  induction is with
  | nil => intro _; rfl
  | cons i is ih =>
    intro hbound
    have hi : i < d.text.length := hbound i (List.mem_cons_self i is)
    have hrest : ∀ j ∈ is, j < d.text.length := fun j hj =>
      hbound j (List.mem_cons_of_mem i hj)
    have hconf : d.conf.get? i = some (d.conf.getD i 0) :=
      get?_eq_some_getD _ _ _ (by omega)
    rw [extractWordsFrom, hconf]
    by_cases hpos : 0 < d.conf.getD i 0
    · rw [get?_eq_some_getD d.text i [] hi, get?_eq_some_getD d.left i 0 (by omega),
        get?_eq_some_getD d.top i 0 (by omega), get?_eq_some_getD d.width i 0 (by omega),
        get?_eq_some_getD d.height i 0 (by omega), ih hrest]
      simp only [Option.bind_eq_bind, Option.some_bind]
      rw [if_pos hpos, List.filter_cons_of_pos (by simpa using hpos), List.map_cons]
      rfl
    · simp only [Option.bind_eq_bind, Option.some_bind]
      rw [if_neg hpos, ih hrest, List.filter_cons_of_neg (by simpa using hpos)]

/-- Counterexample to claim C7 as stated: with `text = []` and `conf = [95]`
the arrays have mismatched lengths, yet `_extract_words` does not fail — the
loop runs over `range(len(data['text'])) = range(0)` and returns `[]`.
Mismatched lengths only fail when the loop actually reads a missing index. -/
theorem extract_words_mismatch_no_failure_cex :
    (TessData.mk [] [95] [] [] [] []).conf.length ≠
      (TessData.mk [] [95] [] [] [] []).text.length ∧
    extract_words ⟨[], [95], [], [], [], []⟩ = some [] := by decide

/-- Claim C7 (amended): `_extract_words` raises (IndexError) only when it
reads an index beyond an array's end; when all six arrays have equal length it
never fails and returns, in input order, exactly the words of the indices
whose raw integer confidence is strictly positive — so `conf = [95, -1, 98]`
yields exactly the two words at indices 0 and 2. -/
theorem extract_words_equal_lengths (d : TessData)
    (hc : d.conf.length = d.text.length) (hl : d.left.length = d.text.length)
    (ht : d.top.length = d.text.length) (hw : d.width.length = d.text.length)
    (hh : d.height.length = d.text.length) :
    extract_words d =
      some (((List.range d.text.length).filter
        fun i => 0 < d.conf.getD i 0).map (wordAt d)) :=
  extractWordsFrom_eq d hc hl ht hw hh (List.range d.text.length)
    fun i hi => List.mem_range.mp hi

/-- Witness for C7 (amended) on the specified `conf = [95, -1, 98]` arrays:
exactly 2 of the 3 entries survive. -/
theorem extract_words_equal_lengths_witness :
    (TessData.mk ["Mon".data, "x".data, "9am".data] [95, -1, 98] [1, 2, 3]
        [4, 5, 6] [7, 8, 9] [10, 11, 12]).conf.length =
      (TessData.mk ["Mon".data, "x".data, "9am".data] [95, -1, 98] [1, 2, 3]
        [4, 5, 6] [7, 8, 9] [10, 11, 12]).text.length ∧
    extract_words ⟨["Mon".data, "x".data, "9am".data], [95, -1, 98], [1, 2, 3],
        [4, 5, 6], [7, 8, 9], [10, 11, 12]⟩ =
      some (((List.range 3).filter
        fun i => 0 < (TessData.mk ["Mon".data, "x".data, "9am".data] [95, -1, 98]
          [1, 2, 3] [4, 5, 6] [7, 8, 9] [10, 11, 12]).conf.getD i 0).map
        (wordAt ⟨["Mon".data, "x".data, "9am".data], [95, -1, 98], [1, 2, 3],
          [4, 5, 6], [7, 8, 9], [10, 11, 12]⟩)) ∧
    ((List.range 3).filter
        fun i => 0 < (TessData.mk ["Mon".data, "x".data, "9am".data] [95, -1, 98]
          [1, 2, 3] [4, 5, 6] [7, 8, 9] [10, 11, 12]).conf.getD i 0).length = 2 :=
  ⟨rfl,
   extract_words_equal_lengths ⟨["Mon".data, "x".data, "9am".data], [95, -1, 98],
     [1, 2, 3], [4, 5, 6], [7, 8, 9], [10, 11, 12]⟩ rfl rfl rfl rfl rfl,
   by decide⟩

/-- Claim C9: on the round-trip text the extractor yields exactly 3
timeblocks in order of appearance; blocks 1 and 2 carry day "Monday" and
block 3 day "Tuesday"; block 1's name contains "Maths" and contains no
digits (the time tokens having been stripped). -/
theorem extract_timeblocks_round_trip :
    (extract_timeblocks roundTripText).length = 3 ∧
    (extract_timeblocks roundTripText).map TimeBlock.day =
      ["Monday".data, "Monday".data, "Tuesday".data] ∧
    ((extract_timeblocks roundTripText).head?.map fun b =>
      containsSubL "Maths".data b.name && b.name.all fun c => !c.isDigit) =
      some true := by
  decide

theorem tryWeekdayNames_mem :
    ∀ (l : List (List Char × List Char)) (prev : Option Char) (s cap : List Char),
      tryWeekdayNames l prev s = some cap → cap ∈ l.map Prod.snd := by
  intro l
  induction l with
  | nil => intro prev s cap h; simp [tryWeekdayNames] at h
  | cons p more ih =>
    intro prev s cap h
    obtain ⟨lo, c2⟩ := p
    cases hm : matchLit true lo s with
    | some rest =>
      simp only [tryWeekdayNames, hm] at h
      split at h
      · cases h
        exact List.mem_cons_self _ _
      · exact List.mem_cons_of_mem _ (ih prev s cap h)
    | none =>
      simp only [tryWeekdayNames, hm] at h
      exact List.mem_cons_of_mem _ (ih prev s cap h)

theorem findWeekdayAux_mem :
    ∀ (fuel : Nat) (prev : Option Char) (s cap : List Char),
      findWeekdayAux fuel prev s = some cap → cap ∈ weekdayNamesCap := by
  intro fuel
  induction fuel with
  | zero => intro prev s cap h; simp [findWeekdayAux] at h
  | succ fuel ih =>
    intro prev s cap h
    cases s with
    | nil => simp [findWeekdayAux] at h
    | cons c cs =>
      cases ht : tryWeekdayNames weekdayPairs prev (c :: cs) with
      | some cap2 =>
        simp only [findWeekdayAux, ht] at h
        cases h
        exact tryWeekdayNames_mem weekdayPairs prev (c :: cs) cap ht
      | none =>
        simp only [findWeekdayAux, ht] at h
        exact ih (some c) cs cap h

theorem findWeekday_mem (s cap : List Char) (h : findWeekday s = some cap) :
    cap ∈ weekdayNamesCap :=
  findWeekdayAux_mem (s.length + 1) none s cap h

theorem processLines_nil (cd : Option (List Char)) : processLines cd [] = [] := by
  cases cd <;> rfl

theorem processLines_cons (cd : Option (List Char)) (rawLine : List Char)
    (rest : List (List Char)) :
    processLines cd (rawLine :: rest) =
      if (pyStrip rawLine).isEmpty then processLines cd rest
      else
        match findWeekday (pyStrip rawLine) with
        | some day => processLines (some day) rest
        | none =>
          match cd with
          | none => processLines cd rest
          | some day =>
            match (scanTimes (pyStrip rawLine)).1 with
            | [] => processLines cd rest
            | t :: ts =>
              if (pyStrip (scanTimes (pyStrip rawLine)).2).isEmpty then
                processLines cd rest
              else
                { day := day, name := pyStrip (scanTimes (pyStrip rawLine)).2,
                  startTime := some (normalize_time t),
                  endTime := ts.head?.map normalize_time } ::
                  processLines cd rest := by
  cases cd <;> rfl

theorem processLines_invariant :
    ∀ (lines : List (List Char)) (cd : Option (List Char)),
      (∀ day, cd = some day → day ∈ weekdayNamesCap) →
      ∀ tb ∈ processLines cd lines,
        tb.day ∈ weekdayNamesCap ∧ tb.name ≠ [] ∧ tb.startTime.isSome := by
  intro lines
  induction lines with
  | nil => intro cd hcd tb htb; rw [processLines_nil] at htb; simp at htb
  | cons rawLine rest ih =>
    intro cd hcd tb htb
    rw [processLines_cons] at htb
    by_cases hemp : (pyStrip rawLine).isEmpty
    · rw [if_pos hemp] at htb
      exact ih cd hcd tb htb
    · rw [if_neg hemp] at htb
      cases hw : findWeekday (pyStrip rawLine) with
      | some day =>
        simp only [hw] at htb
        exact ih (some day)
          (fun d hd => by cases hd; exact findWeekday_mem _ _ hw) tb htb
      | none =>
        simp only [hw] at htb
        cases cd with
        | none => exact ih none hcd tb htb
        | some day =>
          cases hts : (scanTimes (pyStrip rawLine)).1 with
          | nil =>
            simp only [hts] at htb
            exact ih (some day) hcd tb htb
          | cons t ts =>
            simp only [hts] at htb
            by_cases hname : (pyStrip (scanTimes (pyStrip rawLine)).2).isEmpty
            · rw [if_pos hname] at htb
              exact ih (some day) hcd tb htb
            · rw [if_neg hname] at htb
              rcases List.mem_cons.mp htb with heq | hmem
              · subst heq
                refine ⟨hcd day rfl, ?_, rfl⟩
                intro hn
                have hn2 : pyStrip (scanTimes (pyStrip rawLine)).2 = [] := hn
                rw [hn2] at hname
                exact hname rfl
              · exact ih (some day) hcd tb hmem

/-- Claim C10: `extract_timeblocks` is a total function (it always returns a
list, possibly empty — termination and absence of exceptions are inherent in
the embedding), every emitted block carries one of the seven capitalized
weekday names, a non-empty name and a set start time; and a block emitted
from a single line (with a day in scope) has its end time set exactly when
the line contained at least two time tokens. -/
theorem extract_timeblocks_invariants :
    (∀ text : List Char, ∀ tb ∈ extract_timeblocks text,
      tb.day ∈ weekdayNamesCap ∧ tb.name ≠ [] ∧ tb.startTime.isSome) ∧
    (∀ (day rawLine : List Char) (tb : TimeBlock),
      tb ∈ processLines (some day) [rawLine] →
      (tb.endTime.isSome ↔ 2 ≤ (scanTimes (pyStrip rawLine)).1.length)) := by
  constructor
  · intro text tb htb
    exact processLines_invariant (splitOnNl (pyStrip text)) none
      (fun d hd => nomatch hd) tb htb
  · intro day rawLine tb htb
    rw [processLines_cons] at htb
    by_cases hemp : (pyStrip rawLine).isEmpty
    · rw [if_pos hemp] at htb
      rw [processLines_nil] at htb
      simp at htb
    · rw [if_neg hemp] at htb
      cases hw : findWeekday (pyStrip rawLine) with
      | some d =>
        simp only [hw] at htb
        rw [processLines_nil] at htb
        simp at htb
      | none =>
        simp only [hw] at htb
        cases hts : (scanTimes (pyStrip rawLine)).1 with
        | nil =>
          simp only [hts] at htb
          rw [processLines_nil] at htb
          simp at htb
        | cons t ts =>
          simp only [hts] at htb
          by_cases hname : (pyStrip (scanTimes (pyStrip rawLine)).2).isEmpty
          · rw [if_pos hname] at htb
            rw [processLines_nil] at htb
            simp at htb
          · rw [if_neg hname] at htb
            rcases List.mem_cons.mp htb with heq | hmem
            · subst heq
              cases ts with
              | nil => simp
              | cons t2 ts2 => simp
            · rw [processLines_nil] at hmem
              simp at hmem

/-- Witness for C10 on the concrete text "Monday\n9:00 - 10:00 Maths",
whose single emitted block is `("Monday", "- Maths", 09:00, 10:00)`. -/
theorem extract_timeblocks_invariants_witness :
    (TimeBlock.mk "Monday".data "- Maths".data (some "09:00".data)
        (some "10:00".data)) ∈
      extract_timeblocks "Monday\n9:00 - 10:00 Maths".data ∧
    ((TimeBlock.mk "Monday".data "- Maths".data (some "09:00".data)
        (some "10:00".data)).day ∈ weekdayNamesCap ∧
      (TimeBlock.mk "Monday".data "- Maths".data (some "09:00".data)
        (some "10:00".data)).name ≠ [] ∧
      (TimeBlock.mk "Monday".data "- Maths".data (some "09:00".data)
        (some "10:00".data)).startTime.isSome) ∧
    ((TimeBlock.mk "Monday".data "- Maths".data (some "09:00".data)
        (some "10:00".data)).endTime.isSome ↔
      2 ≤ (scanTimes (pyStrip "9:00 - 10:00 Maths".data)).1.length) :=
  ⟨by decide,
   extract_timeblocks_invariants.1 "Monday\n9:00 - 10:00 Maths".data
     (TimeBlock.mk "Monday".data "- Maths".data (some "09:00".data)
       (some "10:00".data)) (by decide),
   extract_timeblocks_invariants.2 "Monday".data "9:00 - 10:00 Maths".data
     (TimeBlock.mk "Monday".data "- Maths".data (some "09:00".data)
       (some "10:00".data)) (by decide)⟩

end LearningYogi
